import Mathlib

/-!
# Verification of the stock time-series dashboard core (`app.py`)

Shallow embedding of the data-ingestion / filter / metrics pipeline of
`app.py` (a pandas + streamlit script), together with theorems settling the
specification claims.

Modelling conventions:
* CSV numeric fields are modelled as `ℚ` (prices) and `ℤ` (volume, dates).
  Dates after `pd.to_datetime` normalization are a comparable temporal type,
  modelled as `ℤ`.
* A source file is either absent, unreadable (parse error), or a parsed table
  (`Table`): a column-name list plus a row list.  Validation in `app.py`
  consults only `df.columns`, which the `Table.cols` field mirrors.
* Library calls (`pd.read_csv`, `rolling(w).mean()`, `.corr()`,
  `sort_values`) are embedded by their (documented and implemented) pandas /
  numpy / scipy semantics; each such definition carries a comment naming the
  behaviour it mirrors.
-/

set_option maxHeartbeats 1000000

namespace Dashboard

/-- One record of the combined dataset, after validation and date
normalization (`app.py` lines 42-47, 60).  Field `sym` is the `Name` column;
`openp/highp/lowp/closep` are the `open/high/low/close` price columns,
`vol` is `volume`, and `date` is the normalized (comparable) date. -/
structure Row where
  sym : String
  date : Int
  openp : ℚ
  highp : ℚ
  lowp : ℚ
  closep : ℚ
  vol : Int
  deriving DecidableEq, Inhabited

/-- A successfully parsed tabular source (the result of `pd.read_csv`,
line 37): the set of column names actually present, plus the rows.  Rows are
carried as `Row` records; `cols` is the authoritative schema that the
missing-columns check consults (`set(df.columns)`, line 43). -/
structure Table where
  cols : List String
  rows : List Row
  deriving DecidableEq, Inhabited

/-- Outcome of attempting to read one source file (lines 31-37, 48):
the file is missing, `pd.read_csv` raised, or a table was parsed. -/
inductive FetchResult where
  | missing : FetchResult
  | readError (msg : String) : FetchResult
  | parsed (t : Table) : FetchResult
  deriving DecidableEq, Inhabited

/-! ## Python string helpers: `Path.name`, `Path.stem`, `str.split`

`app.py` line 40 derives the symbol label as `p.stem.split('_')[0]`.
These are embedded over `List Char` following CPython's `pathlib`
(`stem`: the final component with the last suffix removed, where a suffix
is a `'.'` at index `i` with `0 < i < len - 1`) and `str.split(sep)` for a
one-character separator. -/

/-- Python `str.split(sep)` for a single-character separator `sep`:
splits at every occurrence; always returns a non-empty list. -/
def pySplit (sep : Char) : List Char → List (List Char)
  | [] => [[]]
  | a :: as =>
    let r := pySplit sep as
    if a = sep then [] :: r
    else (a :: r.headD []) :: r.tail

/-- Python `PurePath.name` for a POSIX-style path: the part after the
final `'/'`. -/
def pyName (s : List Char) : List Char :=
  ((pySplit '/' s).getLastD s)

/-- Index of the last occurrence of `c`, if any (Python `str.rfind`). -/
def lastIdxOf (c : Char) (s : List Char) : Option Nat :=
  match s with
  | [] => none
  | a :: as =>
    match lastIdxOf c as with
    | some i => some (i + 1)
    | none => if a = c then some 0 else none

/-- Python `PurePath.stem`: the name with its suffix removed; the suffix is
`name[i:]` for the last `'.'` at index `i` when `0 < i < len(name) - 1`,
otherwise empty. -/
def pyStem (name : List Char) : List Char :=
  match lastIdxOf '.' name with
  | some i => if 0 < i ∧ i + 1 < name.length then name.take i else name
  | none => name

/-- Symbol derivation `p.stem.split(sep)[0]` with separator `'_'`
(`app.py` line 40): the symbol inferred from the source's file name. -/
def deriveSymbol (fname : String) : String :=
  String.mk ((pySplit '_' (pyStem (pyName fname.toList))).headD [])

/-! ## Loader (`app.py` lines 30-57) -/

/-- Line 39-40: if the `Name` column is missing, add it, filling every row
with the symbol derived from the file name. -/
def inferName (fname : String) (t : Table) : Table :=
  if "Name" ∈ t.cols then t
  else { cols := t.cols ++ ["Name"],
         rows := t.rows.map fun r => { r with sym := deriveSymbol fname } }

/-- The required columns (line 42): date, open, high, low, close, volume and
the symbol-label column "Name", listed in Python `sorted` order (code-point
order, so "Name" first). -/
def neededSorted : List String :=
  ["Name", "close", "date", "high", "low", "open", "volume"]

/-- The sorted missing-column list `sorted(needed - set(df.columns))`
(lines 43-45): the required columns not present, in sorted order.  Filtering
the sorted list `neededSorted` gives exactly the sorted set difference. -/
def missingCols (cols : List String) : List String :=
  neededSorted.filter (fun c => decide (c ∉ cols))

/-- The body of the load loop for one source (lines 31-49): returns the rows
this source contributes to the combined dataset together with at most one
diagnostic. -/
def processFile (fname : String) (fr : FetchResult) : List Row × Option String :=
  match fr with
  | .missing => ([], some ("Missing file: " ++ fname))
  | .readError e => ([], some ("Error reading " ++ fname ++ ": " ++ e))
  | .parsed t =>
    let t' := inferName fname t
    let miss := missingCols t'.cols
    if miss ≠ [] then
      ([], some (String.mk (pyName fname.toList) ++ " missing columns: " ++
        String.intercalate ", " miss))
    else (t'.rows, none)

/-- The whole load loop (lines 27-49): folds over the source list,
concatenating contributed rows (`pd.concat`, line 47) and appending
diagnostics to `problems`. -/
def loadAll (srcs : List (String × FetchResult)) : List Row × List String :=
  srcs.foldl
    (fun acc sf =>
      let pr := processFile sf.1 sf.2
      (acc.1 ++ pr.1, acc.2 ++ pr.2.toList))
    ([], [])

/-- Line 51: the pipeline reports "No data loaded" and stops (`st.stop`)
exactly when the combined dataset is empty after all sources were tried. -/
def noDataStop (srcs : List (String × FetchResult)) : Bool :=
  (loadAll srcs).1.isEmpty

/-! ## Filter/Selector (`app.py` lines 84-85)

```
dfc = all_data.query("Name == @selected_company").copy()
dfc = dfc[(dfc["date"] >= start) & (dfc["date"] <= end)].sort_values("date")
```

The two boolean selections preserve row order (`selectRows`).  `sort_values`
sorts by the `date` column; its documented guarantee is only that the result
is ordered by date (the default kind `quicksort` is one of several
algorithms and is *not* documented to be stable).  `filterDf` embeds that
API-level guarantee with a concrete sort (`List.insertionSort`, which is
stable); the tie order actually produced by the default numpy quicksort
kernel is modelled separately below (`aquicksort`) and analysed by the
stability theorems. -/

/-- Row comparison used by the date sort: ascending date. -/
def dateLe (a b : Row) : Prop := a.date ≤ b.date

instance : DecidableRel dateLe := fun a b => inferInstanceAs (Decidable (a.date ≤ b.date))

instance : IsTotal Row dateLe := ⟨fun a b => Int.le_total a.date b.date⟩

instance : IsTrans Row dateLe := ⟨fun _ _ _ h h' => le_trans h h'⟩

/-- The two mask selections of lines 84-85: rows of the chosen symbol whose
date lies in `[s, e]`, in original row order. -/
def selectRows (ds : List Row) (symb : String) (s e : Int) : List Row :=
  (ds.filter fun r => decide (r.sym = symb)).filter
    fun r => decide (s ≤ r.date ∧ r.date ≤ e)

/-- The filter operation: the filtered view `dfc` of lines 84-85 (sort
modelled at the `sort_values` API level: result ordered by ascending date). -/
def filterDf (ds : List Row) (symb : String) (s e : Int) : List Row :=
  List.insertionSort dateLe (selectRows ds symb s e)

/-! ## Metrics (`app.py` lines 88-90, 134-135) -/

/-- The selectable metric (line 67: close, open, high, low, volume). -/
inductive Metric where
  | mclose | mopen | mhigh | mlow | mvolume
  deriving DecidableEq, Inhabited

/-- The column of the filtered view selected by a metric (volume cast to ℚ). -/
def metricCol (m : Metric) (v : List Row) : List ℚ :=
  match m with
  | .mclose => v.map (·.closep)
  | .mopen => v.map (·.openp)
  | .mhigh => v.map (·.highp)
  | .mlow => v.map (·.lowp)
  | .mvolume => v.map fun r => (r.vol : ℚ)

/-- The rolling mean `Series.rolling(w).mean()` (lines 89-90) with the
default `min_periods = w`: position `i` holds the mean of the window ending at `i`
when all `w` values are available (`w ≤ i + 1`), else the missing marker
(`NaN`, modelled as `none`). -/
def rollingMean (w : Nat) (xs : List ℚ) : List (Option ℚ) :=
  (List.range xs.length).map fun i =>
    if w ≤ i + 1 then some (((xs.drop (i + 1 - w)).take w).sum / (w : ℚ))
    else none

/-- The filtered view together with the moving-average columns added by
lines 88-90 (assignment to the f-string column names "MA_" + window). -/
structure Frame where
  base : List Row
  maCols : List (String × List (Option ℚ))
  deriving DecidableEq, Inhabited

/-- The base columns of the combined dataset / filtered view. -/
def baseCols : List String :=
  ["date", "open", "high", "low", "close", "volume", "Name"]

/-- All column names of a frame: the base columns plus any MA columns. -/
def frameCols (f : Frame) : List String :=
  baseCols ++ f.maCols.map (·.1)

/-- Lines 88-90: the moving averages are computed only for price metrics;
when the selected metric is `volume` the step is skipped entirely. -/
def computeMAs (m : Metric) (ma1 ma2 : Nat) (v : List Row) : Frame :=
  if m ≠ Metric.mvolume then
    { base := v,
      maCols := [("MA_" ++ toString ma1, rollingMean ma1 (metricCol m v)),
                 ("MA_" ++ toString ma2, rollingMean ma2 (metricCol m v))] }
  else { base := v, maCols := [] }

/-! ## Correlation matrix (`app.py` lines 134-135)

```
show_cols = ["open","high","low","close","volume"]
corr = dfc[show_cols].corr(method=method, numeric_only=True).round(2)
```

Matrix entries are modelled as `Option ℝ` (`none` = the NaN produced by
pandas/scipy for degenerate inputs; correlations involve real square roots,
hence `ℝ`; the float kernel is modelled by the exact real value).
`pearsonOpt` mirrors pandas `nancorr` (NaN when a variance vanishes),
`spearmanOpt` mirrors `nancorr_spearman` (Pearson on average ranks), and
`kendallOpt` mirrors `scipy.stats.kendalltau` (tau-b; NaN when either
tie-corrected pair count vanishes). -/

/-- The five numeric columns `show_cols` used by the correlation matrix. -/
inductive Col where
  | copen | chigh | clow | cclose | cvolume
  deriving DecidableEq, Inhabited

/-- Values of one of the five numeric columns over the filtered view. -/
def colVals (c : Col) (v : List Row) : List ℚ :=
  match c with
  | .copen => v.map (·.openp)
  | .chigh => v.map (·.highp)
  | .clow => v.map (·.lowp)
  | .cclose => v.map (·.closep)
  | .cvolume => v.map fun r => (r.vol : ℚ)

/-- The selectable correlation method (line 132). -/
inductive Method where
  | pearson | spearman | kendall
  deriving DecidableEq, Inhabited

/-- Mean of a rational list (0 for the empty list, as `0 / 0 = 0` in `ℚ`;
only used under non-degeneracy guards). -/
def meanQ (xs : List ℚ) : ℚ := xs.sum / (xs.length : ℚ)

/-- Centered sum of squares `Σ (x - x̄)²`. -/
def ssq (xs : List ℚ) : ℚ :=
  (xs.map fun x => (x - meanQ xs) ^ 2).sum

/-- Centered sum of products `Σ (x - x̄)(y - ȳ)`. -/
def sprod (xs ys : List ℚ) : ℚ :=
  (List.zipWith (fun x y => (x - meanQ xs) * (y - meanQ ys)) xs ys).sum

/-- Pearson correlation of two equal-length columns, `NaN` (= `none`) when a
variance vanishes (this covers the empty view, a single row, and constant
columns — exactly the cases where pandas `nancorr` produces NaN). -/
noncomputable def pearsonOpt (xs ys : List ℚ) : Option ℝ :=
  if ssq xs = 0 ∨ ssq ys = 0 then none
  else some ((sprod xs ys : ℝ) / Real.sqrt ((ssq xs : ℝ) * (ssq ys : ℝ)))

/-- Average (mid-) rank of `x` within `xs`, 1-based: the mean of the
positions that the tied group of `x` occupies. -/
def rankOf (xs : List ℚ) (x : ℚ) : ℚ :=
  (xs.countP (fun y => decide (y < x)) : ℚ) +
    ((xs.countP (fun y => decide (y = x)) : ℚ) + 1) / 2

/-- The average-rank transform used by Spearman correlation. -/
def ranks (xs : List ℚ) : List ℚ := xs.map (rankOf xs)

/-- Spearman correlation: Pearson correlation of the average ranks. -/
noncomputable def spearmanOpt (xs ys : List ℚ) : Option ℝ :=
  pearsonOpt (ranks xs) (ranks ys)

/-- Number of unordered index pairs `i < j` of `ps` satisfying `p`. -/
def pairCount (p : ℚ × ℚ → ℚ × ℚ → Prop) [DecidableRel p] :
    List (ℚ × ℚ) → Nat
  | [] => 0
  | a :: as => as.countP (fun b => decide (p a b)) + pairCount p as

/-- Kendall tau-b of two equal-length columns (scipy `kendalltau`):
`(C - D) / (√(n₀ - n₁) · √(n₀ - n₂))` over unordered index pairs, `NaN`
when all pairs are ties in either column (covers the empty view). -/
noncomputable def kendallOpt (xs ys : List ℚ) : Option ℝ :=
  let ps := xs.zip ys
  let tot : ℚ := (ps.length : ℚ) * ((ps.length : ℚ) - 1) / 2
  let xt : ℚ := (pairCount (fun a b => a.1 = b.1) ps : ℚ)
  let yt : ℚ := (pairCount (fun a b => a.2 = b.2) ps : ℚ)
  if tot = xt ∨ tot = yt then none
  else
    let c : ℚ := (pairCount
      (fun a b => (a.1 < b.1 ∧ a.2 < b.2) ∨ (b.1 < a.1 ∧ b.2 < a.2)) ps : ℚ)
    let d : ℚ := (pairCount
      (fun a b => (a.1 < b.1 ∧ b.2 < a.2) ∨ (b.1 < a.1 ∧ a.2 < b.2)) ps : ℚ)
    some (((c - d : ℚ) : ℝ) /
      (Real.sqrt ((tot - xt : ℚ) : ℝ) * Real.sqrt ((tot - yt : ℚ) : ℝ)))

/-- One full-precision entry of `dfc[show_cols].corr(method=method)`. -/
noncomputable def corrFull (m : Method) (v : List Row) (c1 c2 : Col) : Option ℝ :=
  match m with
  | .pearson => pearsonOpt (colVals c1 v) (colVals c2 v)
  | .spearman => spearmanOpt (colVals c1 v) (colVals c2 v)
  | .kendall => kendallOpt (colVals c1 v) (colVals c2 v)

/-- Round to the nearest integer, ties to even (numpy `rint`, used by
`DataFrame.round`). -/
noncomputable def roundHE (y : ℝ) : ℤ :=
  if Int.fract y = 1 / 2 then (if Even ⌊y⌋ then ⌊y⌋ else ⌊y⌋ + 1)
  else round y

/-- Rounding `.round(2)` on one (non-NaN) matrix entry. -/
noncomputable def round2R (x : ℝ) : ℝ := (roundHE (x * 100) : ℝ) / 100

/-- One entry of `corr` as the code computes it (line 135): the correlation
matrix with `.round(2)` applied; NaN entries stay NaN. -/
noncomputable def corrRounded (m : Method) (v : List Row) (c1 c2 : Col) : Option ℝ :=
  (corrFull m v c1 c2).map round2R

/-! ## The numpy argsort kernel actually run by the date sort

`DataFrame.sort_values` with the default kind `quicksort` computes the row
permutation with numpy's `aquicksort_` (npysort/quicksort.c.src): an
introsort over the index array `tosort` — median-of-3 quicksort partitions
for segments longer than `SMALL_QUICKSORT = 15` elements, a shared depth
budget `2 * npy_get_msb(num)` after which a segment is finished with
`aheapsort_`, and insertion sort for short segments.  The claim-relevant
point is the tie behaviour of this kernel, so it is embedded operation for
operation below (index lists with `List.getD` / `List.set`; loops take a
fuel argument, always called with ample fuel — each loop is bounded by the
segment length). -/

/-- The index list `tosort` with positions `i` and `j` swapped (`INTP_SWAP`). -/
def lswap (t : List Nat) (i j : Nat) : List Nat :=
  (t.set i (t.getD j 0)).set j (t.getD i 0)

/-- The key at `tosort` position `i` (`v[*pi]`). -/
def keyAt (keys : List Int) (t : List Nat) (i : Nat) : Int :=
  keys.getD (t.getD i 0) 0

/-- The upward scan `do ++pi; while (v[*pi] < vp);` — first position
strictly above `pi` whose key is not `< vp`. -/
def scanUp (keys : List Int) (t : List Nat) (vp : Int) (pi : Nat) : Nat → Nat
  | 0 => pi
  | f + 1 =>
    if keyAt keys t (pi + 1) < vp then scanUp keys t vp (pi + 1) f
    else pi + 1

/-- The downward scan `do --pj; while (vp < v[*pj]);` — first position
strictly below `pj` whose key is not `> vp`. -/
def scanDown (keys : List Int) (t : List Nat) (vp : Int) (pj : Nat) : Nat → Nat
  | 0 => pj
  | f + 1 =>
    if vp < keyAt keys t (pj - 1) then scanDown keys t vp (pj - 1) f
    else pj - 1

/-- The partition crossing loop: scan up, scan down, swap while the scans
have not crossed.  Returns the permuted `tosort` and the final `pi`. -/
def partLoop (keys : List Int) (vp : Int) (t : List Nat) (pi pj : Nat) :
    Nat → List Nat × Nat
  | 0 => (t, pi)
  | f + 1 =>
    let pi' := scanUp keys t vp pi t.length
    let pj' := scanDown keys t vp pj t.length
    if pi' ≥ pj' then (t, pi')
    else partLoop keys vp (lswap t pi' pj') pi' pj' f

/-- Inner insertion-sort shift: `while (pj > pl && vp < v[*pk])
{ *pj-- = *pk--; }` — shift larger keys right, return state and final `pj`. -/
def insShift (keys : List Int) (t : List Nat) (vp : Int) (pl pj : Nat) :
    Nat → List Nat × Nat
  | 0 => (t, pj)
  | f + 1 =>
    if pj > pl ∧ vp < keyAt keys t (pj - 1) then
      insShift keys (t.set pj (t.getD (pj - 1) 0)) vp pl (pj - 1) f
    else (t, pj)

/-- Insertion sort of the segment `[pl, pr]` of `tosort`
(the small-segment branch of `aquicksort_`). -/
def insOuter (keys : List Int) (t : List Nat) (pl pi pr : Nat) :
    Nat → List Nat
  | 0 => t
  | f + 1 =>
    if pi ≤ pr then
      let vi := t.getD pi 0
      let vp := keys.getD vi 0
      let (t', pj) := insShift keys t vp pl pi t.length
      insOuter keys (t'.set pj vi) pl (pi + 1) pr f
    else t

/-- One-based access into the heap segment: `a = tosort + pl - 1`, `a[k]`. -/
def aGet (t : List Nat) (pl k : Nat) : Nat := t.getD (pl + k - 1) 0

/-- One-based store into the heap segment. -/
def aSet (t : List Nat) (pl k : Nat) (x : Nat) : List Nat :=
  t.set (pl + k - 1) x

/-- The sift-down loop of `aheapsort_`: walks `tmp` down from hole `i` with
child `j`, doubling `j`; returns the state and final hole. -/
def siftLoop (keys : List Int) (t : List Nat) (pl : Nat) (tmp : Nat)
    (i j n : Nat) : Nat → List Nat × Nat
  | 0 => (t, i)
  | f + 1 =>
    if j ≤ n then
      let j' := if j < n ∧ keys.getD (aGet t pl j) 0 < keys.getD (aGet t pl (j + 1)) 0
        then j + 1 else j
      if keys.getD tmp 0 < keys.getD (aGet t pl j') 0 then
        siftLoop keys (aSet t pl i (aGet t pl j')) pl tmp j' (j' + j') n f
      else (t, i)
    else (t, i)

/-- Heap construction of `aheapsort_`: `for (l = n >> 1; l > 0; --l)`. -/
def heapBuild (keys : List Int) (t : List Nat) (pl l n : Nat) :
    Nat → List Nat
  | 0 => t
  | f + 1 =>
    if 0 < l then
      let tmp := aGet t pl l
      let (t', i) := siftLoop keys t pl tmp l (l + l) n t.length
      heapBuild keys (aSet t' pl i tmp) pl (l - 1) n f
    else t

/-- Extraction phase of `aheapsort_`: `for (; n > 1;)`. -/
def heapExtract (keys : List Int) (t : List Nat) (pl n : Nat) :
    Nat → List Nat
  | 0 => t
  | f + 1 =>
    if 1 < n then
      let tmp := aGet t pl n
      let t1 := aSet t pl n (aGet t pl 1)
      let n' := n - 1
      let (t2, i) := siftLoop keys t1 pl tmp 1 2 n' t.length
      heapExtract keys (aSet t2 pl i tmp) pl n' f
    else t

/-- Whole `aheapsort_(vv, pl, n)`: heapsort of the `n`-element segment of
`tosort` starting at `pl`. -/
def aheapsortSeg (keys : List Int) (t : List Nat) (pl n : Nat) : List Nat :=
  heapExtract keys (heapBuild keys t pl (n / 2) n t.length) pl n t.length

/-- The main `aquicksort_` recursion on the segment `[pl, pr]` of `tosort`,
threading the shared depth budget `d`: partition while the segment is longer
than 16, recurse into the smaller side first (the C loop continues with the
smaller partition, stacking the larger), heapsort once the budget is
exhausted, insertion-sort short segments. -/
def introMain (keys : List Int) : Nat → List Nat × Int → Nat → Nat →
    List Nat × Int
  | 0, td, _, _ => td
  | f + 1, (t, d), pl, pr =>
    if pr - pl > 15 then
      if d < 0 then (aheapsortSeg keys t pl (pr - pl + 1), d - 1)
      else
        let d1 := d - 1
        let pm := pl + (pr - pl) / 2
        let t1 := if keyAt keys t pm < keyAt keys t pl then lswap t pm pl else t
        let t2 := if keyAt keys t1 pr < keyAt keys t1 pm then lswap t1 pr pm else t1
        let t3 := if keyAt keys t2 pm < keyAt keys t2 pl then lswap t2 pm pl else t2
        let vp := keyAt keys t3 pm
        let t4 := lswap t3 pm (pr - 1)
        let (t5, pi) := partLoop keys vp t4 pl (pr - 1) t4.length
        let t6 := lswap t5 pi (pr - 1)
        if pi - pl < pr - pi then
          let td7 := introMain keys f (t6, d1) pl (pi - 1)
          introMain keys f td7 (pi + 1) pr
        else
          let td7 := introMain keys f (t6, d1) (pi + 1) pr
          introMain keys f td7 pl (pi - 1)
    else (insOuter keys t pl (pl + 1) pr (pr + 1 - pl), d)

/-- The helper `npy_get_msb`: index of the highest set bit
(`⌊log₂ n⌋` for `n ≥ 1`). -/
def npyGetMsb (n : Nat) : Nat := Nat.log2 n

/-- Full `np.argsort` with the default kind: the index permutation produced
by numpy's introsort kernel. -/
def aquicksort (keys : List Int) : List Nat :=
  let n := keys.length
  (introMain keys (n + 1) (List.range n, (2 * npyGetMsb n : Int)) 0 (n - 1)).1

/-- The date sort as actually executed by `sort_values`: reorder the rows by
the `aquicksort` permutation of the date column. -/
def sortValuesKernel (rows : List Row) : List Row :=
  (aquicksort (rows.map (·.date))).map fun i => rows.getD i default

/-- The filtered view of lines 84-85 with the sort refined to the kernel
permutation (used to settle the tie-order claim). -/
def filterKernel (ds : List Row) (symb : String) (s e : Int) : List Row :=
  sortValuesKernel (selectRows ds symb s e)

/-! ## Concrete instances used by witnesses and counterexamples -/

/-- A one-row combined dataset containing only an "AAPL" record. -/
def rowA : Row :=
  { sym := "AAPL", date := 1, openp := 1, highp := 2, lowp := 1, closep := 2, vol := 10 }

/-- A parsed table lacking only the `volume` column. -/
def tNoVolume : Table :=
  { cols := ["date", "open", "high", "low", "close", "Name"], rows := [] }

/-- A parsed table lacking the symbol-label column and the `close` column. -/
def tNoName : Table :=
  { cols := ["date", "open", "high", "low", "volume"], rows := [] }

/-- A single-source load where the file is absent. -/
def srcs0 : List (String × FetchResult) := [("AAPL_data.csv", FetchResult.missing)]

/-- A two-row view whose every price column is `[1, 2]` (perfect correlation). -/
def vtwo : List Row :=
  [{ sym := "AAPL", date := 1, openp := 1, highp := 1, lowp := 1, closep := 1, vol := 1 },
   { sym := "AAPL", date := 2, openp := 2, highp := 2, lowp := 2, closep := 2, vol := 2 }]

/-- Six rows whose `open` column is `[1,2,3,4,5,6]` and `close` column is
`[2,1,3,4,5,6]`: their Pearson correlation is exactly `33/35`, which is not
a two-decimal quantity. -/
def sampleRows : List Row :=
  [{ sym := "AAPL", date := 1, openp := 1, highp := 1, lowp := 1, closep := 2, vol := 1 },
   { sym := "AAPL", date := 2, openp := 2, highp := 2, lowp := 2, closep := 1, vol := 2 },
   { sym := "AAPL", date := 3, openp := 3, highp := 3, lowp := 3, closep := 3, vol := 3 },
   { sym := "AAPL", date := 4, openp := 4, highp := 4, lowp := 4, closep := 4, vol := 4 },
   { sym := "AAPL", date := 5, openp := 5, highp := 5, lowp := 5, closep := 5, vol := 5 },
   { sym := "AAPL", date := 6, openp := 6, highp := 6, lowp := 6, closep := 6, vol := 6 }]

/-- Seventeen rows of one symbol sharing a single date, distinguished by
`vol`.  Seventeen is the smallest length on which `aquicksort` leaves the
insertion-sort regime and partitions. -/
def rows17 : List Row :=
  (List.range 17).map fun i =>
    { sym := "AAPL", date := 0, openp := 1, highp := 1, lowp := 1, closep := 1,
      vol := (i : Int) }

/-! # Theorems -/

/-! ## Symbol derivation (C10) -/

theorem pySplit_ne_nil (sep : Char) (l : List Char) : pySplit sep l ≠ [] := by
  cases l with
  | nil => simp [pySplit]
  | cons a as =>
    simp only [pySplit]
    split <;> simp

theorem pySplit_headD (sep : Char) (l : List Char) :
    (pySplit sep l).headD [] = l.takeWhile (fun b => b ≠ sep) := by
  induction l with
  | nil => simp [pySplit]
  | cons a as ih =>
    by_cases h : a = sep
    · simp [pySplit, h, List.takeWhile_cons_of_neg]
    · rw [pySplit, List.takeWhile_cons_of_pos (by simp [h])]
      simp only [if_neg h, List.headD_cons]
      exact congrArg (a :: ·) ih

/-- C10: symbol derivation from a source identifier is total: it returns the
part of the stem (base name without extension) before the first underscore;
with no underscore the whole stem; with a leading underscore the empty
string.  The split list is never empty, so the index `[0]` cannot raise. -/
theorem deriveSymbol_spec (fname : String) :
    pySplit '_' (pyStem (pyName fname.toList)) ≠ []
  ∧ deriveSymbol fname =
      String.mk ((pyStem (pyName fname.toList)).takeWhile (fun b => b ≠ '_'))
  ∧ ((pyStem (pyName fname.toList)).all (fun b => b ≠ '_') →
      deriveSymbol fname = String.mk (pyStem (pyName fname.toList)))
  ∧ ((pyStem (pyName fname.toList)).headD ' ' = '_' → deriveSymbol fname = "") := by
  have main : ∀ l : List Char,
      (pySplit '_' l).headD [] = l.takeWhile (fun b => b ≠ '_')
    ∧ (l.all (fun b => b ≠ '_') → (pySplit '_' l).headD [] = l)
    ∧ (l.headD ' ' = '_' → (pySplit '_' l).headD [] = []) := by
    intro l
    refine ⟨pySplit_headD '_' l, ?_, ?_⟩
    · intro hall
      rw [pySplit_headD '_' l, List.takeWhile_eq_self_iff.mpr]
      intro a ha
      exact List.all_eq_true.mp hall a ha
    · intro hhd
      rw [pySplit_headD '_' l]
      cases l with
      | nil => rfl
      | cons a as =>
        simp only [List.headD_cons] at hhd
        rw [hhd, List.takeWhile_cons_of_neg (by simp)]
  obtain ⟨h1, h2, h3⟩ := main (pyStem (pyName fname.toList))
  refine ⟨pySplit_ne_nil '_' _, congrArg String.mk h1,
    fun hall => congrArg String.mk (h2 hall),
    fun hhd => congrArg String.mk (h3 hhd)⟩

/-- Witness for C10 at concrete file names: the four-company convention, a
stem without underscore, and a stem with a leading underscore. -/
theorem deriveSymbol_spec_witness :
    deriveSymbol "AAPL_data.csv" = "AAPL"
  ∧ ((pyStem (pyName "GOOG.csv".toList)).all (fun b => b ≠ '_')
      ∧ deriveSymbol "GOOG.csv" = "GOOG")
  ∧ ((pyStem (pyName "_data.csv".toList)).headD ' ' = '_'
      ∧ deriveSymbol "_data.csv" = "") := by
  refine ⟨((deriveSymbol_spec "AAPL_data.csv").2.1).trans (by decide),
    ⟨by decide, ((deriveSymbol_spec "GOOG.csv").2.2.1 (by decide)).trans (by decide)⟩,
    ⟨by decide, (deriveSymbol_spec "_data.csv").2.2.2 (by decide)⟩⟩

/-! ## Missing-columns validation (C3, C9) -/

/-- C3: a source that parses but lacks required fields contributes zero rows
and exactly one diagnostic of the form
"name missing columns: missing fields in sorted order"; in particular a
source missing only `volume` yields "name missing columns: volume". -/
theorem missing_columns_diag (fname : String) (t : Table) :
    (missingCols (inferName fname t).cols ≠ [] →
      processFile fname (.parsed t) =
        ([], some (String.mk (pyName fname.toList) ++ " missing columns: " ++
          String.intercalate ", " (missingCols (inferName fname t).cols))))
  ∧ List.Sorted (fun a b : String => a.data < b.data)
      (missingCols (inferName fname t).cols)
  ∧ (missingCols (inferName fname t).cols = ["volume"] →
      processFile fname (.parsed t) =
        ([], some (String.mk (pyName fname.toList) ++ " missing columns: volume"))) := by
  refine ⟨?_, ?_, ?_⟩
  · intro h
    simp [processFile, h]
  · exact List.Pairwise.sublist (List.filter_sublist _) (by decide)
  · intro h
    have hx : String.intercalate ", " ["volume"] = "volume" := by decide
    have hy : " missing columns: " ++ "volume" = " missing columns: volume" := by decide
    simp [processFile, h, hx, String.append_assoc, hy]

/-- Witness for C3: a concrete source file whose table lacks only the
`volume` column produces exactly the claimed diagnostic and no rows. -/
theorem missing_columns_diag_witness :
    missingCols (inferName "AMZN_data.csv" tNoVolume).cols = ["volume"]
  ∧ processFile "AMZN_data.csv" (.parsed tNoVolume) =
      ([], some "AMZN_data.csv missing columns: volume") := by
  refine ⟨by decide, ?_⟩
  exact ((missing_columns_diag "AMZN_data.csv" tNoVolume).2.2 (by decide)).trans (by decide)

/-- C9: the symbol-label column is inferred before the required-columns
check, so "Name" is always present when the check runs, never appears in
the missing list, and a skipped source is always missing one of the six
lower-case data columns. -/
theorem name_inferred_before_check (fname : String) (t : Table) :
    "Name" ∈ (inferName fname t).cols
  ∧ "Name" ∉ missingCols (inferName fname t).cols
  ∧ (missingCols (inferName fname t).cols ≠ [] →
      ∃ c, c ∈ ["close", "date", "high", "low", "open", "volume"] ∧
        c ∉ (inferName fname t).cols) := by
  have h1 : "Name" ∈ (inferName fname t).cols := by
    rw [inferName]
    split
    · assumption
    · simp
  refine ⟨h1, ?_, ?_⟩
  · intro hmem
    have := List.of_mem_filter hmem
    exact of_decide_eq_true this h1
  · intro hne
    obtain ⟨c, hc⟩ := List.exists_mem_of_ne_nil _ hne
    rw [missingCols] at hc
    have hcn : c ∈ neededSorted := List.mem_of_mem_filter hc
    have hfm := List.of_mem_filter hc
    have hcm : c ∉ (inferName fname t).cols := of_decide_eq_true hfm
    rcases List.mem_cons.mp hcn with hceq | hctail
    · exact absurd h1 (hceq ▸ hcm)
    · exact ⟨c, hctail, hcm⟩

/-- Witness for C9: a concrete table missing both the label column and
`close`: the label is inferred, and the skip is due to `close` alone. -/
theorem name_inferred_before_check_witness :
    ("Name" ∈ (inferName "AAPL_data.csv" tNoName).cols
  ∧ "Name" ∉ missingCols (inferName "AAPL_data.csv" tNoName).cols)
  ∧ ∃ c, c ∈ ["close", "date", "high", "low", "open", "volume"] ∧
      c ∉ (inferName "AAPL_data.csv" tNoName).cols := by
  refine ⟨⟨(name_inferred_before_check "AAPL_data.csv" tNoName).1,
    (name_inferred_before_check "AAPL_data.csv" tNoName).2.1⟩,
    (name_inferred_before_check "AAPL_data.csv" tNoName).2.2 (by decide)⟩

/-! ## Loader failure semantics (C4) -/

theorem loadAll_foldl (srcs : List (String × FetchResult)) (a : List Row)
    (b : List String) :
    srcs.foldl (fun acc sf =>
      let pr := processFile sf.1 sf.2
      (acc.1 ++ pr.1, acc.2 ++ pr.2.toList)) (a, b) =
    (a ++ (srcs.map (fun sf => (processFile sf.1 sf.2).1)).flatten,
     b ++ srcs.filterMap (fun sf => (processFile sf.1 sf.2).2)) := by
  induction srcs generalizing a b with
  | nil => simp
  | cons s ss ih =>
    simp only [List.foldl_cons, ih, List.map_cons, List.flatten_cons,
      List.filterMap_cons]
    cases hpr : (processFile s.1 s.2).2 <;>
      simp [hpr, List.append_assoc]

theorem length_filterMap_isSome {α β : Type} (f : α → Option β) (l : List α) :
    (l.filterMap f).length = l.countP (fun a => (f a).isSome) := by
  induction l with
  | nil => rfl
  | cons a as ih =>
    cases h : f a <;> simp [List.filterMap_cons, h, List.countP_cons, ih]

/-- C4: per-source problems never abort the load: the loop is a total fold
that collects one diagnostic per failing source (in order) and concatenates
the rows of the passing ones; a failing source contributes no rows; and the
fatal "no data loaded" stop fires exactly when the combined dataset is empty
after all sources were attempted. -/
theorem loader_never_aborts (srcs : List (String × FetchResult)) :
    (loadAll srcs).2 = srcs.filterMap (fun sf => (processFile sf.1 sf.2).2)
  ∧ (loadAll srcs).1 = (srcs.map (fun sf => (processFile sf.1 sf.2).1)).flatten
  ∧ (loadAll srcs).2.length =
      srcs.countP (fun sf => (processFile sf.1 sf.2).2.isSome)
  ∧ (∀ fname fr, (fname, fr) ∈ srcs → (processFile fname fr).2.isSome →
      (processFile fname fr).1 = [])
  ∧ (noDataStop srcs = true ↔ (loadAll srcs).1 = []) := by
  have hfold := loadAll_foldl srcs [] []
  have h2 : (loadAll srcs).2 =
      srcs.filterMap (fun sf => (processFile sf.1 sf.2).2) := by
    rw [loadAll, hfold]
    simp
  have h1 : (loadAll srcs).1 =
      (srcs.map (fun sf => (processFile sf.1 sf.2).1)).flatten := by
    rw [loadAll, hfold]
    simp
  refine ⟨h2, h1, ?_, ?_, ?_⟩
  · rw [h2, length_filterMap_isSome]
  · intro fname fr _ hsome
    cases fr with
    | missing => rfl
    | readError e => rfl
    | parsed t =>
      by_cases h : missingCols (inferName fname t).cols ≠ []
      · simp [processFile, h]
      · simp [processFile, h] at hsome
  · rw [noDataStop, List.isEmpty_iff]

/-- Witness for C4: a load whose only source is a missing file completes,
returns the one diagnostic, contributes no rows, and triggers the
"no data loaded" stop. -/
theorem loader_never_aborts_witness :
    loadAll srcs0 = ([], ["Missing file: AAPL_data.csv"])
  ∧ (("AAPL_data.csv", FetchResult.missing) ∈ srcs0
      ∧ (processFile "AAPL_data.csv" FetchResult.missing).1 = [])
  ∧ noDataStop srcs0 = true := by
  refine ⟨by decide, ⟨by decide,
    (loader_never_aborts srcs0).2.2.2.1 "AAPL_data.csv" FetchResult.missing
      (by decide) (by decide)⟩, ?_⟩
  exact (loader_never_aborts srcs0).2.2.2.2.mpr (by decide)

/-! ## Rolling mean (C2) -/

theorem rollingMean_getD (w : Nat) (xs : List ℚ) (i : Nat) (hi : i < xs.length) :
    (rollingMean w xs).getD i none =
      if w ≤ i + 1 then some (((xs.drop (i + 1 - w)).take w).sum / (w : ℚ))
      else none := by
  rw [rollingMean, List.getD_eq_getElem?_getD, List.getElem?_map,
    List.getElem?_range hi]
  rfl

theorem countP_range_window (w n : Nat) (hw : 1 ≤ w) :
    (List.range n).countP (fun i => decide (w ≤ i + 1)) = n + 1 - w := by
  induction n with
  | zero =>
    simp only [List.range_zero, List.countP_nil]
    omega
  | succ n ih =>
    rw [List.range_succ, List.countP_append, ih, List.countP_cons,
      List.countP_nil]
    by_cases h : w ≤ n + 1 <;> simp [h] <;> omega

/-- C2: the rolling mean preserves the length; position `i` is the mean of
the trailing window exactly when all `w` values are available and the
missing marker otherwise; exactly `max (0, n - w + 1)` positions are
defined and they are the trailing ones; and the example input
`[1,2,3,4,5]` with window 3 yields `[NA, NA, 2, 3, 4]`. -/
theorem rollingMean_spec (w : Nat) (xs : List ℚ) (hw : 2 ≤ w) :
    (rollingMean w xs).length = xs.length
  ∧ (∀ i, i < xs.length →
      (rollingMean w xs).getD i none =
        if w ≤ i + 1 then some (((xs.drop (i + 1 - w)).take w).sum / (w : ℚ))
        else none)
  ∧ (rollingMean w xs).countP (fun o => o.isSome) = xs.length + 1 - w
  ∧ (∀ i j, i ≤ j → j < xs.length →
      ((rollingMean w xs).getD i none).isSome = true →
      ((rollingMean w xs).getD j none).isSome = true)
  ∧ rollingMean 3 [1, 2, 3, 4, 5] = [none, none, some 2, some 3, some 4] := by
  refine ⟨by simp [rollingMean], fun i hi => rollingMean_getD w xs i hi, ?_, ?_, ?_⟩
  · rw [rollingMean, List.countP_map]
    have hfun : ((fun o : Option ℚ => o.isSome) ∘ fun i =>
        if w ≤ i + 1 then some (((xs.drop (i + 1 - w)).take w).sum / (w : ℚ))
        else none) = fun i => decide (w ≤ i + 1) := by
      funext i
      by_cases h : w ≤ i + 1 <;> simp [h]
    rw [hfun, countP_range_window w xs.length (by omega)]
  · intro i j hij hj hsome
    have hi : i < xs.length := lt_of_le_of_lt hij hj
    rw [rollingMean_getD w xs i hi] at hsome
    rw [rollingMean_getD w xs j hj]
    by_cases h1 : w ≤ i + 1
    · have h2 : w ≤ j + 1 := by omega
      simp [h2]
    · simp [h1] at hsome
  · have hr : List.range 5 = [0, 1, 2, 3, 4] := rfl
    norm_num [rollingMean, hr, List.take_succ_cons, List.take_zero,
      List.drop_succ_cons, List.drop_zero, List.sum_cons, List.sum_nil]

/-- Witness for C2 at the spec's example: window 3 over `[1,2,3,4,5]`. -/
theorem rollingMean_spec_witness :
    2 ≤ 3 ∧ rollingMean 3 [1, 2, 3, 4, 5] = [none, none, some 2, some 3, some 4] :=
  ⟨by norm_num, (rollingMean_spec 3 [1, 2, 3, 4, 5] (by norm_num)).2.2.2.2⟩

/-! ## Filter correctness (C1) -/

theorem selectRows_mem (ds : List Row) (symb : String) (s e : Int) (r : Row) :
    r ∈ selectRows ds symb s e ↔
      r ∈ ds ∧ r.sym = symb ∧ s ≤ r.date ∧ r.date ≤ e := by
  simp only [selectRows, List.mem_filter, decide_eq_true_eq]
  tauto

theorem filterDf_mem (ds : List Row) (symb : String) (s e : Int) (r : Row) :
    r ∈ filterDf ds symb s e ↔
      r ∈ ds ∧ r.sym = symb ∧ s ≤ r.date ∧ r.date ≤ e := by
  rw [filterDf, List.mem_insertionSort]
  exact selectRows_mem ds symb s e r

theorem filterDf_nil_of_absent (ds : List Row) (symb : String) (s e : Int)
    (h : symb ∉ ds.map Row.sym) : filterDf ds symb s e = [] := by
  have hf : ds.filter (fun r => decide (r.sym = symb)) = [] := by
    rw [List.filter_eq_nil_iff]
    intro r hr
    simp only [decide_eq_true_eq]
    intro heq
    exact h (List.mem_map.mpr ⟨r, hr, heq⟩)
  rw [filterDf, selectRows, hf]
  rfl

/-- C1: the filter returns exactly the rows of the chosen symbol with date
in the inclusive range, sorted ascending by date, all of them rows of the
input; a symbol absent from the dataset gives the empty view (the operation
is total — no error). -/
theorem filter_spec (ds : List Row) (symb : String) (s e : Int) :
    (∀ r, r ∈ filterDf ds symb s e ↔
      r ∈ ds ∧ r.sym = symb ∧ s ≤ r.date ∧ r.date ≤ e)
  ∧ List.Sorted dateLe (filterDf ds symb s e)
  ∧ (filterDf ds symb s e).Perm (selectRows ds symb s e)
  ∧ filterDf ds symb s e ⊆ ds
  ∧ (symb ∉ ds.map Row.sym → filterDf ds symb s e = []) := by
  refine ⟨fun r => filterDf_mem ds symb s e r,
    List.sorted_insertionSort dateLe _,
    List.perm_insertionSort dateLe _, ?_,
    filterDf_nil_of_absent ds symb s e⟩
  intro r hr
  exact ((filterDf_mem ds symb s e r).mp hr).1

/-- Witness for C1: filtering a one-symbol dataset for an absent symbol
yields the empty view without error. -/
theorem filter_spec_witness :
    "MSFT" ∉ [rowA].map Row.sym ∧ filterDf [rowA] "MSFT" 0 5 = [] :=
  ⟨by decide, (filter_spec [rowA] "MSFT" 0 5).2.2.2.2 (by decide)⟩

/-! ## Correlation on the empty view (C5) -/

theorem colVals_nil (c : Col) : colVals c [] = [] := by
  cases c <;> rfl

theorem pearsonOpt_nil : pearsonOpt [] [] = none := by
  simp [pearsonOpt, ssq, meanQ]

theorem kendallOpt_nil : kendallOpt [] [] = none := by
  norm_num [kendallOpt, pairCount]

/-- C5: on the empty filtered view every correlation-matrix entry is the
undefined (NaN-like) marker, for every method, and in particular filtering
for an absent symbol followed by the correlation computation completes with
the all-undefined matrix instead of raising. -/
theorem corr_empty_undefined (m : Method) :
    (∀ c1 c2, corrRounded m ([] : List Row) c1 c2 = none)
  ∧ (∀ ds symb s e c1 c2, symb ∉ ds.map Row.sym →
      corrRounded m (filterDf ds symb s e) c1 c2 = none) := by
  have hnil : ∀ c1 c2 : Col, corrFull m ([] : List Row) c1 c2 = none := by
    intro c1 c2
    cases m with
    | pearson => simp [corrFull, colVals_nil, pearsonOpt_nil]
    | spearman => simp [corrFull, colVals_nil, spearmanOpt, ranks, pearsonOpt_nil]
    | kendall => simp [corrFull, colVals_nil, kendallOpt_nil]
  constructor
  · intro c1 c2
    rw [corrRounded, hnil c1 c2]
    rfl
  · intro ds symb s e c1 c2 habs
    rw [filterDf_nil_of_absent ds symb s e habs, corrRounded, hnil c1 c2]
    rfl

/-- Witness for C5: the spec's example — a dataset with only "AAPL" rows
filtered for "MSFT", then Pearson correlation of open against close. -/
theorem corr_empty_undefined_witness :
    "MSFT" ∉ [rowA].map Row.sym
  ∧ corrRounded Method.pearson (filterDf [rowA] "MSFT" 0 5)
      Col.copen Col.cclose = none :=
  ⟨by decide, (corr_empty_undefined Method.pearson).2 [rowA] "MSFT" 0 5
    Col.copen Col.cclose (by decide)⟩

/-! ## Rounding of the correlation matrix (C6) -/

theorem ssq_sample_x : ssq [1, 2, 3, 4, 5, 6] = 35 / 2 := by
  norm_num [ssq, meanQ, List.map_cons, List.map_nil, List.sum_cons,
    List.sum_nil, List.length_cons]

theorem ssq_sample_y : ssq ([2, 1, 3, 4, 5, 6] : List ℚ) = 35 / 2 := by
  norm_num [ssq, meanQ, List.map_cons, List.map_nil, List.sum_cons,
    List.sum_nil, List.length_cons]

theorem sprod_sample : sprod [1, 2, 3, 4, 5, 6] [2, 1, 3, 4, 5, 6] = 33 / 2 := by
  norm_num [sprod, meanQ, List.zipWith_cons_cons, List.zipWith_nil_right,
    List.sum_cons, List.sum_nil, List.length_cons]

theorem pearsonOpt_sample :
    pearsonOpt [1, 2, 3, 4, 5, 6] [2, 1, 3, 4, 5, 6] = some ((33 : ℝ) / 35) := by
  rw [pearsonOpt, ssq_sample_x, ssq_sample_y, sprod_sample,
    if_neg (by norm_num)]
  congr 1
  have hs : Real.sqrt (((35 / 2 : ℚ) : ℝ) * ((35 / 2 : ℚ) : ℝ)) = 35 / 2 := by
    rw [show ((35 / 2 : ℚ) : ℝ) = (35 / 2 : ℝ) by norm_num,
      Real.sqrt_mul_self (by norm_num)]
  rw [hs]
  push_cast
  norm_num

theorem roundHE_660_7 : roundHE ((660 : ℝ) / 7) = 94 := by
  have hfloor : ⌊(660 : ℝ) / 7⌋ = 94 := by
    rw [Int.floor_eq_iff]
    norm_num
  rw [roundHE, if_neg (by rw [Int.fract, hfloor]; norm_num), round_eq,
    show (660 : ℝ) / 7 + 1 / 2 = 1327 / 14 by norm_num, Int.floor_eq_iff]
  norm_num

/-- Counterexample for C6: on a six-row view whose open and close columns
are `[1,2,3,4,5,6]` and `[2,1,3,4,5,6]`, the Pearson correlation is exactly
`33/35 = 0.942857...`, but the entry the code computes (line 135 applies
`.round(2)` in the same expression that builds the matrix) is `0.94`; the
component therefore does not return full-precision values. -/
theorem corr_rounding_cex :
    corrRounded Method.pearson sampleRows Col.copen Col.cclose ≠
      corrFull Method.pearson sampleRows Col.copen Col.cclose := by
  have hx : colVals Col.copen sampleRows = [1, 2, 3, 4, 5, 6] := rfl
  have hy : colVals Col.cclose sampleRows = [2, 1, 3, 4, 5, 6] := rfl
  have hfull : corrFull Method.pearson sampleRows Col.copen Col.cclose =
      some ((33 : ℝ) / 35) := by
    rw [corrFull, hx, hy, pearsonOpt_sample]
  rw [corrRounded, hfull, Option.map_some']
  intro hcon
  have heq : round2R ((33 : ℝ) / 35) = (33 : ℝ) / 35 := Option.some.inj hcon
  rw [round2R, show (33 : ℝ) / 35 * 100 = 660 / 7 by norm_num,
    roundHE_660_7] at heq
  norm_num at heq

theorem corrRounded_vtwo :
    corrRounded Method.pearson vtwo Col.copen Col.copen = some 1 := by
  have hx : colVals Col.copen vtwo = [1, 2] := rfl
  have hssq : ssq [1, 2] = 1 / 2 := by
    norm_num [ssq, meanQ, List.map_cons, List.map_nil, List.sum_cons,
      List.sum_nil, List.length_cons]
  have hsp : sprod [1, 2] [1, 2] = 1 / 2 := by
    norm_num [sprod, meanQ, List.zipWith_cons_cons, List.zipWith_nil_right,
      List.sum_cons, List.sum_nil, List.length_cons]
  have hfull : corrFull Method.pearson vtwo Col.copen Col.copen =
      some (1 : ℝ) := by
    rw [corrFull, hx, pearsonOpt, hssq, hsp, if_neg (by norm_num)]
    have hs : Real.sqrt (((1 / 2 : ℚ) : ℝ) * ((1 / 2 : ℚ) : ℝ)) = 1 / 2 := by
      rw [show ((1 / 2 : ℚ) : ℝ) = (1 / 2 : ℝ) by norm_num,
        Real.sqrt_mul_self (by norm_num)]
    rw [hs]
    push_cast
    norm_num
  have hround : roundHE ((1 : ℝ) * 100) = 100 := by
    have hfloor : ⌊(100 : ℝ)⌋ = 100 := by
      rw [Int.floor_eq_iff]
      norm_num
    rw [show (1 : ℝ) * 100 = 100 by norm_num, roundHE,
      if_neg (by rw [Int.fract, hfloor]; norm_num), round_eq,
      show (100 : ℝ) + 1 / 2 = 201 / 2 by norm_num, Int.floor_eq_iff]
    norm_num
  rw [corrRounded, hfull, Option.map_some', round2R, hround]
  norm_num

/-- C6 as amended: the component returns the correlation matrix already
rounded to two decimal digits — every entry the code produces equals the
round-half-even of the full-precision value and is an integer multiple of
`1/100`; no full-precision matrix is exposed. -/
theorem corr_rounded_component (m : Method) (v : List Row) (c1 c2 : Col) :
    corrRounded m v c1 c2 = (corrFull m v c1 c2).map round2R
  ∧ (∀ x, corrRounded m v c1 c2 = some x → ∃ k : ℤ, x = (k : ℝ) / 100) := by
  refine ⟨rfl, ?_⟩
  intro x hx
  rw [corrRounded] at hx
  rcases Option.map_eq_some'.mp hx with ⟨y, _, hxy⟩
  exact ⟨roundHE (y * 100), by rw [← hxy, round2R]⟩

/-- Witness for the amended C6: on a perfectly correlated two-row view the
code's Pearson entry is `1`, a multiple of `1/100`. -/
theorem corr_rounded_component_witness : ∃ k : ℤ, (1 : ℝ) = (k : ℝ) / 100 :=
  (corr_rounded_component Method.pearson vtwo Col.copen Col.copen).2 1
    corrRounded_vtwo

/-! ## Determinism, idempotence and tie order of the filter (C7) -/

/-- Counterexample for C7: on a dataset of 17 rows of one symbol sharing one
date (so the claimed stable tie-breaking demands the original row order),
the filter as executed — numpy's default quicksort kernel — returns the rows
in a different order: the selection keeps all 17 rows in original order, all
dates are equal, yet the sorted output differs from the original order. -/
theorem filter_stability_cex :
    selectRows rows17 "AAPL" 0 0 = rows17
  ∧ rows17.map Row.date = List.replicate 17 0
  ∧ filterKernel rows17 "AAPL" 0 0 ≠ rows17 :=
  ⟨by decide, by decide, by decide⟩

/-- C7 as amended: the filter is deterministic and idempotent — identical
arguments give identical output, both at the kernel level and at the API
level — but the date sort is numpy's default quicksort, which is not
stable: on 17 equal keys the kernel's permutation differs from the
identity, so rows with equal dates need not keep their original order. -/
theorem filter_deterministic_not_stable :
    (∀ ds symb s e, filterKernel ds symb s e = filterKernel ds symb s e)
  ∧ (∀ ds symb s e, filterDf ds symb s e = filterDf ds symb s e)
  ∧ aquicksort (List.replicate 17 0) ≠ List.range 17 :=
  ⟨fun _ _ _ _ => rfl, fun _ _ _ _ => rfl, by decide⟩

/-! ## Skipping the moving averages for the volume metric (C8) -/

/-- C8: when the chosen metric is `volume` the rolling-mean step is skipped
entirely: no MA columns are produced and the frame's columns are exactly the
combined dataset's columns, unchanged. -/
theorem volume_metric_skips_mas (ma1 ma2 : Nat) (v : List Row) :
    computeMAs Metric.mvolume ma1 ma2 v = { base := v, maCols := [] }
  ∧ frameCols (computeMAs Metric.mvolume ma1 ma2 v) = baseCols := by
  constructor
  · simp [computeMAs]
  · simp [computeMAs, frameCols]

end Dashboard
